import Mathlib

set_option linter.unusedVariables false

/-!
Verification development for the Vok backend server
(`src/unnamed/part_000`, the May 9 2025 Play.ht version, lines 1-752).

The embedding covers the speech segment compositing pipeline:
  * the constants and configuration tables (`voiceProfiles`, `personalities`,
    `soundMap`),
  * the segment parser inside the `/api/tts` route (lines 682-702),
  * `generatePlayHTSpeech` (lines 304-329),
  * `mergeAudioSegments` (lines 332-420),
  * the `/api/tts` handler glue (lines 660-718).

External effects (the PlayHT backend, ffmpeg invocations, the filesystem,
`Math.random()`, `Date.now()`, and whether the consumer reads the output
stream to its end) are supplied by oracles collected in `RunEnv`.  The model
records which files a run creates and which files it unlinks, the ffmpeg
invocation it builds (inputs, per-input filter strings, concat filter), and
the PlayHT calls it makes, so that resource and ordering properties can be
stated and settled.
-/

namespace Vok

/-- Constants, source lines 56-60. -/
def RESPONSE_DELAY_MS : Nat := 500

def TTS_RATE_RANDOMIZATION_FACTOR : ℚ := 5 / 100

def TTS_ELLIPSIS_BREAK_MIN_MS : Int := 400

def TTS_ELLIPSIS_BREAK_MAX_MS : Int := 600

/-- Source line 60.  Declared in the source but unused by the ffmpeg filter,
which hard-codes the rubberband pitch factor string instead. -/
def TTS_GLOBAL_PITCH_ADJUSTMENT : ℚ := -1

/-- Voice profiles table, source lines 39-49 (key order as in the source). -/
def voiceProfiles : List (String × String) :=
  [ ("stalker", "s3://voice-cloning-zero-shot/--ZmP68iZ-Gd_LxyVx2C9/stalker/manifest.json"),
    ("andrew", "s3://voice-cloning-zero-shot/-mclt8urjjQX6KSOD-SpN/york/manifest.json"),
    ("josef", "s3://voice-cloning-zero-shot/5eTQqEIfsDVfC_xuYSJ2d/josef/manifest.json"),
    ("letby", "s3://voice-cloning-zero-shot/PhpYXU98ksvRQpKiwX-fz/letby/manifest.json"),
    ("shannon", "s3://voice-cloning-zero-shot/looTf0NVHGP5N33Xt3bMJ/shannon/manifest.json"),
    ("jimmy", "s3://voice-cloning-zero-shot/mxG-JSMwfhNaVWVLqawsg/jimy/manifest.json"),
    ("hunts", "s3://voice-cloning-zero-shot/xBdn4KI3fopPTXqnrBGkk/hunts/manifest.json"),
    ("ted", "s3://voice-cloning-zero-shot/xhzY33B1Yz3B-ZtcNnUOJ/ted/manifest.json"),
    ("default", "larry") ]

/-- One entry of the personality table (lines 108-241).  Only the fields the
TTS pipeline reads are embedded; `backgroundFile`/`toneFile` feed the chat
route, which is outside the compositing core. -/
structure PersonalityConfig where
  name : String
  voiceKey : String
deriving DecidableEq, Repr

/-- Personality table, source lines 108-241 (key order and `voiceKey`
values as in the source). -/
def personalities : List (String × PersonalityConfig) :=
  [ ("huntley", ⟨"Ian Huntley & Maxine Carr", "hunts"⟩),
    ("bundy", ⟨"Ted Bundy", "ted"⟩),
    ("ripper", ⟨"Yorkshire Ripper", "default"⟩),
    ("fritzl", ⟨"Josef Fritzl", "josef"⟩),
    ("andrew", ⟨"Prince Andrew", "andrew"⟩),
    ("dennis", ⟨"Dennis Nilsen", "default"⟩),
    ("west", ⟨"Fred & Rose West", "default"⟩),
    ("gracy", ⟨"John Wayne Gacy", "default"⟩),
    ("zodiac", ⟨"Zodiac Killer", "default"⟩),
    ("p-diddy", ⟨"P Diddy / Puff Daddy", "default"⟩),
    ("dahmer", ⟨"Jeffrey Dahmer", "default"⟩),
    ("shipman", ⟨"Harold Shipman", "default"⟩),
    ("savile", ⟨"Jimmy Savile", "jimmy"⟩),
    ("glitter", ⟨"Gary Glitter", "default"⟩),
    ("epstein", ⟨"Jeffrey Epstein", "default"⟩),
    ("lucy", ⟨"Lucy Letby", "letby"⟩),
    ("shannon", ⟨"Karen Matthews", "shannon"⟩),
    ("brady", ⟨"Ian Brady", "default"⟩),
    ("moors", ⟨"Moors Murderers", "default"⟩),
    ("adolf", ⟨"Adolf Hitler", "default"⟩),
    ("stalker", ⟨"Yorkshire Stalker", "stalker"⟩),
    ("dando", ⟨"Jill Dando", "default"⟩) ]

/-- One entry of the sound effect map (lines 423-432). -/
structure SoundEntry where
  fallback : String
  filename : String
deriving DecidableEq, Repr

/-- Sound effect mapping, source lines 423-432 (key order as in the source). -/
def soundMap : List (String × SoundEntry) :=
  [ ("*coughs*", ⟨"cough", "fart4.mp3"⟩),
    ("laugh", ⟨"laugh", "sick.mp3"⟩),
    ("feels", ⟨"feel", "fart.mp3"⟩),
    ("methods", ⟨"chuckle", "fart6.mp3"⟩),
    ("*clears throat*", ⟨"clears throat", "clears_throat.mp3"⟩),
    ("unlike", ⟨"sigh", "fart2.mp3"⟩),
    ("*scoffs*", ⟨"scoff", "scoff.mp3"⟩),
    ("criminal", ⟨"coughs", "fart5.mp3"⟩) ]

/-! ### Segment parser (the `/api/tts` route, lines 682-702)

The route builds `regex` from the `soundMap` keys plus the ellipsis token
`...` (each escaped, joined by alternation, global flag) and iterates its
matches with `String.replace`.  JS `replace` with a global regex visits the
non-overlapping matches left to right; at each position the alternation
takes the first alternative that matches there, and the scan resumes after
the end of the match.  `findMarker` embeds exactly that scan.

The replace callback is declared `(match, index) => ...`.  Because the
pattern wraps the whole alternation in one capture group, the callback's
second parameter is that capture group — the matched marker STRING — and
not the numeric match offset.  Consequently, in the source:
  * `index > lastIndex` compares a marker string with the number `0` on the
    first match (`ToNumber` of every marker is `NaN`, so `false`), and two
    strings lexicographically on later matches;
  * `remainingText.slice(lastIndex, index)` coerces both bounds with
    `ToIntegerOrInfinity`; both are non-numeric strings there, so both
    become `0` and the pushed text segment is always empty;
  * `lastIndex = index + match.length` is string concatenation, so the
    final `lastIndex < remainingText.length` check is `NaN`-false whenever
    at least one marker matched.
The embedding (`JsValue`, `idxGtLast`, `parseScan`) reproduces those
dynamics faithfully. -/

/-- A parsed segment as pushed by the `/api/tts` route:
`{type:'text', content}`, `{type:'pause', duration}`, `{type:'sound', content}`. -/
inductive Segment where
  | text (content : List Char)
  | pause (duration : Int)
  | sound (content : List Char)
deriving DecidableEq, Repr

/-- Pause duration for one ellipsis occurrence, line 693:
`Math.floor(Math.random() * (MAX - MIN + 1)) + MIN` where `r` stands for the
`Math.random()` draw (a real in `[0,1)`, modelled as a rational). -/
def pauseDuration (r : ℚ) : Int :=
  Rat.floor (r * ((TTS_ELLIPSIS_BREAK_MAX_MS - TTS_ELLIPSIS_BREAK_MIN_MS + 1 : Int) : ℚ)) +
    TTS_ELLIPSIS_BREAK_MIN_MS

/-- The ellipsis token `'...'` appended to the marker list, line 684. -/
def ellipsisToken : List Char := "...".toList

/-- `const markers = [...Object.keys(soundMap), '...']`, line 684
(insertion order of the object keys, then the ellipsis). -/
def markers : List (List Char) :=
  (soundMap.map (fun p => p.1.toList)) ++ [ellipsisToken]

/-- Leftmost-earliest match of the alternation: the smallest position where
some marker is a literal prefix of the rest, returning the first marker (in
alternation order) matching there, as (position, marker). -/
def findMarker (ms : List (List Char)) : List Char → Option (Nat × List Char)
  | [] => none
  | c :: rest =>
    match ms.find? (fun m => m.isPrefixOf (c :: rest)) with
    | some m => some (0, m)
    | none => (findMarker ms rest).map (fun p => (p.1 + 1, p.2))

/-- The JS value held by the route's `lastIndex` variable: the number `0`
initially, and a string (marker concatenated with a digit string) after the
first match. -/
inductive JsValue where
  | num (n : Nat)
  | str (s : List Char)
deriving DecidableEq, Repr

/-- JS string comparison (`<` on two strings): lexicographic by code unit.
All strings involved are ASCII, where `Char` order agrees with UTF-16 code
unit order. -/
def jsStrLt : List Char → List Char → Bool
  | [], [] => false
  | [], _ :: _ => true
  | _ :: _, [] => false
  | a :: as, b :: bs => if a = b then jsStrLt as bs else decide (a < b)

/-- The callback's `index > lastIndex` test.  `index` is the matched marker
string (see above).  Against a number, `ToNumber` of a non-numeric marker
string is `NaN` and the comparison is `false`; against a string the
comparison is lexicographic.  (Every marker in `soundMap` and the ellipsis
token is a non-numeric string.) -/
def idxGtLast (m : List Char) (last : JsValue) : Bool :=
  match last with
  | .num _ => false
  | .str l => jsStrLt l m

/-- The code after the replace call, lines 700-702:
`if (lastIndex < remainingText.length) push slice(lastIndex)`.  When
`lastIndex` holds a (non-numeric) string the comparison is `NaN`-false. -/
def tailText (s : List Char) (last : JsValue) : List Segment :=
  match last with
  | .num n => if n < s.length then [Segment.text (s.drop n)] else []
  | .str _ => []

/-- One pass of the replace-callback loop plus the trailing-text check,
lines 687-702.  `fuel` bounds the recursion; the wrapper passes
`text.length`, which is sufficient because every marker is nonempty, so the
fuel-exhausted branch is unreachable from `parseSegments`.
`rand` is the `Math.random()` oracle and `k` counts the draws consumed. -/
def parseScan (rand : Nat → ℚ) (ms : List (List Char)) :
    Nat → List Char → JsValue → Nat → List Segment
  | 0, s, last, _ =>
    match findMarker ms s with
    | none => tailText s last
    | some _ => []
  | f + 1, s, last, k =>
    match findMarker ms s with
    | none => tailText s last
    | some (i, m) =>
      -- `if (index > lastIndex) push({type:'text', content: slice(lastIndex, index)})`
      -- (the slice bounds are non-numeric strings here, so the slice is empty)
      let pre : List Segment := if idxGtLast m last then [Segment.text []] else []
      let seg : Segment :=
        if m = ellipsisToken then Segment.pause (pauseDuration (rand k))
        else Segment.sound m
      let nk : Nat := if m = ellipsisToken then k + 1 else k
      -- `lastIndex = index + match.length` : string concatenation
      let nlast : JsValue := JsValue.str (m ++ (toString m.length).toList)
      pre ++ seg :: parseScan rand ms f (s.drop (i + m.length)) nlast nk

/-- The segment parse of the `/api/tts` route (lines 682-702). -/
def parseSegments (rand : Nat → ℚ) (text : List Char) : List Segment :=
  parseScan rand markers text.length text (JsValue.num 0) 0

/-- Reconstruction rules taken from claim C6: a text segment contributes its
content, a sound segment its matched marker key, a pause segment the
ellipsis token. -/
def renderSegment : Segment → List Char
  | .text c => c
  | .pause _ => ellipsisToken
  | .sound c => c

/-- The pause durations of a segment list, in order. -/
def pauseDurations (l : List Segment) : List Int :=
  l.filterMap (fun s => match s with | .pause d => some d | _ => none)

/-! ### generatePlayHTSpeech (lines 304-329) and mergeAudioSegments (lines 332-420) -/

/-- `path.join(a, b)`. -/
def pathJoin (a b : String) : String := a ++ "/" ++ b

/-- `process.env.RENDER ? '/tmp' : path.join(__dirname, 'temp')`, line 333
(the Render branch; the local branch differs only in the directory name). -/
def tempDir : String := "/tmp"

/-- `path.join(__dirname, 'public')`, line 67, with `__dirname` abstracted. -/
def publicDir : String := "public"

/-- JS `a || b` on an optional string value: the right operand is taken when
the left is `undefined` or the empty string (the falsy string). -/
def jsOrString : Option String → Option String → Option String
  | some s, b => if s = "" then b else some s
  | none, b => b

def lookupProfile (k : String) : Option String := voiceProfiles.lookup k

/-- `const voiceId = voiceProfiles[voiceKey] || voiceProfiles.default`,
line 305.  The `voiceKey` parameter is optional because the `/api/tts` route
actually passes its `tone` value (possibly `undefined`) in this position. -/
def resolveVoiceId (voiceKey : Option String) : Option String :=
  jsOrString (voiceKey.bind lookupProfile) (lookupProfile "default")

/-- The speed computed by `generatePlayHTSpeech`, lines 308-319: baseline 1,
`angry` tone multiplies by 1.2, global adjustment `* 1.2 * 0.9`, then the
bounded random jitter, clamped to `[0.5, 2.0]`.  `r` is the `Math.random()`
draw of this call. -/
def speechSpeed (tone : Option String) (r : ℚ) : ℚ :=
  let speed : ℚ := if tone = some "angry" then 1 * (12 / 10) else 1
  let speed := speed * (12 / 10) * (9 / 10)
  let rateRandomFactor := (r - 1 / 2) * 2 * TTS_RATE_RANDOMIZATION_FACTOR
  max (1 / 2) (min 2 (speed * (1 + rateRandomFactor)))

/-- The `temperature` of `generatePlayHTSpeech`: 0.9 for the `angry` tone,
0.7 otherwise (lines 309-314). -/
def speechTemperature (tone : Option String) : ℚ :=
  if tone = some "angry" then 9 / 10 else 7 / 10

/-- One PlayHT synthesis request as issued by `generatePlayHTSpeech`
(the arguments that matter to the claims: the text and the resolved backend
voice identity). -/
structure SynthCall where
  text : List Char
  voiceId : String
deriving DecidableEq, Repr

/-- The voice resolution and guard of `generatePlayHTSpeech`, lines 305-306:
`if (!voiceId) throw new Error(...)`; on success the call that would be sent
to `PlayHT.stream`.  Whether the network call succeeds is decided by the
run environment at the call site. -/
def generatePlayHTSpeech (text : List Char) (voiceKey tone : Option String) :
    Except String SynthCall :=
  match resolveVoiceId voiceKey with
  | none => Except.error "Unknown voice"
  | some voiceId =>
    if voiceId = "" then Except.error "Unknown voice"
    else Except.ok { text := text, voiceId := voiceId }

/-- One entry of `inputFiles` in `mergeAudioSegments`: `{ file, needsPitch }`. -/
structure InputFile where
  file : String
  needsPitch : Bool
deriving DecidableEq, Repr

/-- Oracles for the external effects of one `mergeAudioSegments` run. -/
structure RunEnv where
  /-- outcome of the n-th `PlayHT.stream` + `pipeline` write of this run -/
  synthOk : Nat → Bool
  /-- outcome of the n-th silence-generation ffmpeg invocation -/
  silenceOk : Nat → Bool
  /-- `fs.access` on a sound file path -/
  soundExists : String → Bool
  /-- outcome of the final merging ffmpeg invocation -/
  mergeOk : Bool
  /-- `err.message` of the final ffmpeg invocation when it fails -/
  mergeErrMsg : String
  /-- whether the output read stream reaches its `end` event (i.e. the
  consumer reads it fully; `false` models failure or early disconnect) -/
  streamEnd : Bool
  /-- `Date.now()` at line 383 -/
  now : Nat

/-- Mutable state of the materialization loop of `mergeAudioSegments`:
`fileIndex`, `hasTextSegment`, `inputFiles`, plus the bookkeeping the model
adds (files created by this run, oracle cursors, synthesis calls made). -/
structure LoopState where
  fileIndex : Nat
  hasTextSegment : Bool
  inputFiles : List InputFile
  created : List String
  synthN : Nat
  silenceN : Nat
  synthCalls : List SynthCall
deriving Repr

def initState : LoopState :=
  { fileIndex := 0, hasTextSegment := false, inputFiles := [], created := [],
    synthN := 0, silenceN := 0, synthCalls := [] }

/-- JS `String.prototype.trim` on a char list. -/
def jsTrim (s : List Char) : List Char :=
  ((s.dropWhile Char.isWhitespace).reverse.dropWhile Char.isWhitespace).reverse

/-- One iteration of the `for (const segment of segments)` loop of
`mergeAudioSegments`, lines 340-373.  An `Except.error` models a thrown
exception (which aborts the whole merge); its payload carries the state at
the throw so that the files already created are kept in the trace. -/
def stepSeg (env : RunEnv) (voiceKey tone : Option String) (st : LoopState) :
    Segment → Except (String × LoopState) LoopState
  | .text content =>
    if jsTrim content ≠ [] then
      -- lines 341-346
      let st1 := { st with hasTextSegment := true }
      let tempFile := pathJoin tempDir ("tts_" ++ toString st1.fileIndex ++ ".mp3")
      let st2 := { st1 with fileIndex := st1.fileIndex + 1 }
      match generatePlayHTSpeech content voiceKey tone with
      | Except.error msg => Except.error (msg, st2)
      | Except.ok call =>
        let st3 := { st2 with synthCalls := st2.synthCalls ++ [call] }
        if env.synthOk st3.synthN then
          Except.ok { st3 with
            synthN := st3.synthN + 1,
            created := st3.created ++ [tempFile],
            inputFiles := st3.inputFiles ++ [{ file := tempFile, needsPitch := true }] }
        else Except.error ("SynthesisError", { st3 with synthN := st3.synthN + 1 })
    else Except.ok st
  | .pause _ =>
    -- lines 347-360: generate a silent clip of the requested duration
    let tempFile := pathJoin tempDir ("silence_" ++ toString st.fileIndex ++ ".mp3")
    let st1 := { st with fileIndex := st.fileIndex + 1 }
    if env.silenceOk st1.silenceN then
      Except.ok { st1 with
        silenceN := st1.silenceN + 1,
        created := st1.created ++ [tempFile],
        inputFiles := st1.inputFiles ++ [{ file := tempFile, needsPitch := false }] }
    else Except.error ("SilenceGenerationError", { st1 with silenceN := st1.silenceN + 1 })
  | .sound content =>
    -- lines 361-372: resolve in soundMap, check existence, push or skip
    match soundMap.lookup (String.mk content) with
    | some entry =>
      if entry.filename ≠ "" then
        let soundFile := pathJoin (pathJoin publicDir "sounds") entry.filename
        if env.soundExists soundFile then
          Except.ok { st with
            inputFiles := st.inputFiles ++ [{ file := soundFile, needsPitch := false }] }
        else Except.ok st
      else Except.ok st
    | none => Except.ok st

/-- The whole materialization loop; a thrown exception short-circuits. -/
def runLoop (env : RunEnv) (voiceKey tone : Option String) :
    List Segment → LoopState → LoopState × Option String
  | [], st => (st, none)
  | seg :: rest, st =>
    match stepSeg env voiceKey tone st seg with
    | Except.error (msg, st1) => (st1, some msg)
    | Except.ok st1 => runLoop env voiceKey tone rest st1

/-- The fixed pitch factor hard-coded in the rubberband filter, line 391. -/
def rubberbandPitchFactor : String := "0.944060876285923"

/-- Filter entry for input `i` when `needsPitch` holds, line 391. -/
def pitchFilter (i : Nat) : String :=
  "[" ++ toString i ++ ":a]rubberband=pitch=" ++ rubberbandPitchFactor ++
    "[" ++ toString i ++ "a]"

/-- Filter entry for input `i` when `needsPitch` does not hold, line 393:
the stream is relabelled and passed through with no transform. -/
def passFilter (i : Nat) : String :=
  "[" ++ toString i ++ ":a][" ++ toString i ++ "a]"

/-- `filterInputs`, lines 386-395: one entry per input, in input order. -/
def buildFilterInputs (inputs : List InputFile) : List String :=
  inputs.enum.map (fun p => if p.2.needsPitch then pitchFilter p.1 else passFilter p.1)

/-- The concat filter, line 398: the labels `[0a][1a]...` in index order
followed by `concat=n=<count>:v=0:a=1[outa]`. -/
def buildConcatFilter (n : Nat) : String :=
  String.join ((List.range n).map (fun i => "[" ++ toString i ++ "a]")) ++
    ("concat=n=" ++ toString n ++ ":v=0:a=1[outa]")

/-- The single ffmpeg invocation built at lines 384-406. -/
structure FfmpegInvocation where
  inputs : List InputFile
  filterInputs : List String
  concatFilter : String
  outputFile : String
deriving DecidableEq, Repr

deriving instance DecidableEq for Except

/-- Everything observable about one `mergeAudioSegments` run. -/
structure RunTrace where
  /-- the overall outcome: `ok` when the merged stream is returned, `error`
  with the thrown message otherwise -/
  result : Except String Unit
  /-- the ffmpeg merge invocation, when the run got as far as building it -/
  invocation : Option FfmpegInvocation
  /-- files this run created, in creation order -/
  created : List String
  /-- files this run unlinked in its cleanup handler, in unlink order -/
  deleted : List String
  /-- the PlayHT synthesis calls attempted, in order -/
  synthCalls : List SynthCall
deriving Repr

/-- The fallback stage of `mergeAudioSegments`, lines 375-381:
`if (inputFiles.length === 0 || !hasTextSegment)`, synthesize the fixed
placeholder utterance and push it (with the pitch flag) onto `inputFiles`;
the already materialized inputs are kept. -/
def fallbackStep (env : RunEnv) (voiceKey tone : Option String) (st : LoopState) :
    Except (String × LoopState) LoopState :=
  if st.inputFiles.length = 0 ∨ st.hasTextSegment = false then
    let fallbackFile := pathJoin tempDir ("fallback_" ++ toString st.fileIndex ++ ".mp3")
    let st1 := { st with fileIndex := st.fileIndex + 1 }
    match generatePlayHTSpeech "No response generated.".toList voiceKey tone with
    | Except.error msg => Except.error (msg, st1)
    | Except.ok call =>
      let st2 := { st1 with synthCalls := st1.synthCalls ++ [call] }
      if env.synthOk st2.synthN then
        Except.ok { st2 with
          synthN := st2.synthN + 1,
          created := st2.created ++ [fallbackFile],
          inputFiles := st2.inputFiles ++ [{ file := fallbackFile, needsPitch := true }] }
      else Except.error ("SynthesisError", { st2 with synthN := st2.synthN + 1 })
  else Except.ok st

/-- The merge invocation and cleanup of `mergeAudioSegments`, lines 383-419:
build the one ffmpeg command over all inputs, run it, and on success return
the read stream whose `end` handler unlinks every entry of `inputFiles`
plus the output file.  The unlink list is empty unless the stream reaches
`end` (`env.streamEnd`); unlink errors are swallowed (`.catch(() => {})`). -/
def finishMerge (env : RunEnv) (st1 : LoopState) : RunTrace :=
  let outputFile := pathJoin tempDir ("merged_" ++ toString env.now ++ ".mp3")
  let inv : FfmpegInvocation :=
    { inputs := st1.inputFiles,
      filterInputs := buildFilterInputs st1.inputFiles,
      concatFilter := buildConcatFilter st1.inputFiles.length,
      outputFile := outputFile }
  if env.mergeOk then
    { result := Except.ok (), invocation := some inv,
      created := st1.created ++ [outputFile],
      deleted :=
        if env.streamEnd then st1.inputFiles.map (fun f => f.file) ++ [outputFile]
        else [],
      synthCalls := st1.synthCalls }
  else
    { result := Except.error ("FFmpeg error: " ++ env.mergeErrMsg),
      invocation := some inv, created := st1.created, deleted := [],
      synthCalls := st1.synthCalls }

/-- The stages after the materialization loop: a thrown loop exception
becomes an `error` trace; otherwise the fallback stage runs and then the
merge invocation. -/
def mergeAfterLoop (env : RunEnv) (voiceKey tone : Option String) :
    LoopState × Option String → RunTrace
  | (st, some msg) =>
    { result := Except.error msg, invocation := none,
      created := st.created, deleted := [], synthCalls := st.synthCalls }
  | (st, none) =>
    match fallbackStep env voiceKey tone st with
    | Except.error (msg, st1) =>
      { result := Except.error msg, invocation := none,
        created := st1.created, deleted := [], synthCalls := st1.synthCalls }
    | Except.ok st1 => finishMerge env st1

/-- `mergeAudioSegments(segments, voiceKey, tone)`, lines 332-420:
the materialization loop, the fallback stage, then the single merge
invocation with its cleanup handler.  A thrown exception at any stage
yields an `error` trace in which nothing was unlinked. -/
def mergeAudioSegments (env : RunEnv) (segments : List Segment)
    (voiceKey tone : Option String) : RunTrace :=
  mergeAfterLoop env voiceKey tone (runLoop env voiceKey tone segments initState)

/-- Concatenation of the segments' reconstructions (type-appropriate rules
of claim C6). -/
def renderAll : List Segment → List Char
  | [] => []
  | s :: t => renderSegment s ++ renderAll t

/-! ### The `/api/tts` handler, lines 660-718 -/

/-- The response of the `/api/tts` route. -/
inductive TtsResponse where
  /-- a 400 response (validation failure) -/
  | badRequest (msg : String)
  /-- a 500 response (merge threw before streaming) -/
  | serverError (msg : String)
  /-- the merged audio was streamed -/
  | streamed (trace : RunTrace)
deriving Repr

/-- `POST /api/tts` (lines 660-718).  Validations, then the segment parse,
then the merge.  Line 705 reads `mergeAudioSegments(segments, tone)`:
the three-parameter function receives the request's `tone` in its
`voiceKey` position and `undefined` as `tone`. -/
def ttsHandler (env : RunEnv) (rand : Nat → ℚ) (text : String)
    (personality : Option String) (tone : Option String) : TtsResponse :=
  if jsTrim text.toList = [] then TtsResponse.badRequest "Invalid or missing text for TTS."
  else
    match personality.bind (fun p => personalities.lookup p) with
    | none => TtsResponse.badRequest "Invalid or missing personality key."
    | some config =>
      let voiceKey := if config.voiceKey = "" then "default" else config.voiceKey
      match lookupProfile voiceKey with
      | none => TtsResponse.badRequest "No voice mapped for personality"
      | some v =>
        if v = "" then TtsResponse.badRequest "No voice mapped for personality"
        else
          let segments := parseSegments rand text.toList
          -- line 705: `mergeAudioSegments(segments, tone)` — `voiceKey` is
          -- computed above but not passed; the merge sees voiceKey := tone
          -- and tone := undefined.
          let trace := mergeAudioSegments env segments tone none
          match trace.result with
          | Except.error msg => TtsResponse.serverError msg
          | Except.ok _ => TtsResponse.streamed trace

/-- The voices of the synthesis calls of a streamed response. -/
def TtsResponse.synthVoices : TtsResponse → Option (List String)
  | .streamed trace => some (trace.synthCalls.map (fun c => c.voiceId))
  | _ => none

/-- `Except.ok` as a proposition. -/
@[reducible] def ExceptOk (r : Except String Unit) : Prop := r = Except.ok ()

/-! ### Concrete environments used by counterexamples and witnesses -/

/-- Every external operation succeeds and the consumer reads the output
stream to its end. -/
def envAllOk : RunEnv :=
  { synthOk := fun _ => true, silenceOk := fun _ => true,
    soundExists := fun _ => true, mergeOk := true, mergeErrMsg := "",
    streamEnd := true, now := 0 }

/-- As `envAllOk` but the final ffmpeg merge fails. -/
def envMergeFail : RunEnv := { envAllOk with mergeOk := false, mergeErrMsg := "boom" }

/-- As `envAllOk` but the first synthesis call fails. -/
def envSynthFailFirst : RunEnv := { envAllOk with synthOk := fun n => decide (n ≠ 0) }

/-- As `envAllOk` but with a different `Date.now()` value (a second run). -/
def envAllOkLater : RunEnv := { envAllOk with now := 1 }

/-! ## Theorems -/

/-- `Rat.floor` characterized by its bounding inequalities. -/
theorem ratFloor_eq_iff {x : ℚ} {n : Int} :
    Rat.floor x = n ↔ (n : ℚ) ≤ x ∧ x < (n : ℚ) + 1 := by
  constructor
  · intro h
    refine ⟨Rat.le_floor.mp (le_of_eq h.symm), ?_⟩
    by_contra hx
    push_neg at hx
    have h2 : n + 1 ≤ Rat.floor x := Rat.le_floor.mpr (by push_cast; linarith)
    omega
  · rintro ⟨h1, h2⟩
    have l1 : n ≤ Rat.floor x := Rat.le_floor.mpr h1
    have l2 : ¬ (n + 1 ≤ Rat.floor x) := by
      intro hc
      have := Rat.le_floor.mp hc
      push_cast at this
      linarith
    omega

/-- The pause-duration formula with its constants evaluated. -/
theorem pauseDuration_def (r : ℚ) : pauseDuration r = Rat.floor (r * 201) + 400 := by
  unfold pauseDuration TTS_ELLIPSIS_BREAK_MAX_MS TTS_ELLIPSIS_BREAK_MIN_MS
  norm_num

/-- For a draw in `[0,1)` the duration lands in the inclusive range 400-600. -/
theorem pauseDuration_range (r : ℚ) (h0 : 0 ≤ r) (h1 : r < 1) :
    400 ≤ pauseDuration r ∧ pauseDuration r ≤ 600 := by
  rw [pauseDuration_def]
  have hlow : (0 : Int) ≤ Rat.floor (r * 201) := by
    apply Rat.le_floor.mpr
    push_cast
    nlinarith
  have hhigh : ¬ ((201 : Int) ≤ Rat.floor (r * 201)) := by
    intro hc
    have := Rat.le_floor.mp hc
    push_cast at this
    nlinarith
  omega

/-- The preimage of each duration value is one half-open subinterval of
`[0,1)` of width `1/201`: the discrete distribution is uniform when the
draw is uniform. -/
theorem pauseDuration_eq_iff (r : ℚ) (d : Int) :
    pauseDuration r = d ↔ ((d : ℚ) - 400) / 201 ≤ r ∧ r < ((d : ℚ) - 399) / 201 := by
  rw [pauseDuration_def]
  have h1 : Rat.floor (r * 201) + 400 = d ↔ Rat.floor (r * 201) = d - 400 := by omega
  rw [h1, ratFloor_eq_iff, div_le_iff₀ (by norm_num : (0 : ℚ) < 201),
    lt_div_iff₀ (by norm_num : (0 : ℚ) < 201)]
  push_cast
  constructor
  · rintro ⟨a, b⟩
    exact ⟨by linarith, by linarith⟩
  · rintro ⟨a, b⟩
    exact ⟨by linarith, by linarith⟩

theorem pauseDurations_tailText (s : List Char) (last : JsValue) :
    pauseDurations (tailText s last) = [] := by
  cases last with
  | num n =>
    show pauseDurations (if n < s.length then [Segment.text (s.drop n)] else []) = []
    by_cases hn : n < s.length
    · rw [if_pos hn]; rfl
    · rw [if_neg hn]; rfl
  | str l => rfl

theorem pauseDurations_append (a b : List Segment) :
    pauseDurations (a ++ b) = pauseDurations a ++ pauseDurations b :=
  List.filterMap_append a b _

theorem pauseDurations_cons_text (c : List Char) (l : List Segment) :
    pauseDurations (Segment.text c :: l) = pauseDurations l := rfl

theorem pauseDurations_cons_sound (c : List Char) (l : List Segment) :
    pauseDurations (Segment.sound c :: l) = pauseDurations l := rfl

theorem pauseDurations_cons_pause (d : Int) (l : List Segment) :
    pauseDurations (Segment.pause d :: l) = d :: pauseDurations l := rfl

/-- The scan consumes one fresh draw per emitted pause, in order: the j-th
pause (0-based) of the output carries `pauseDuration (rand (k + j))`. -/
theorem pauseDurations_parseScan (rand : Nat → ℚ) (ms : List (List Char)) :
    ∀ (fuel : Nat) (s : List Char) (last : JsValue) (k : Nat),
    ∃ c, pauseDurations (parseScan rand ms fuel s last k) =
      (List.range c).map (fun j => pauseDuration (rand (k + j))) := by
  have hrange : ∀ (k c : Nat),
      (List.range (c + 1)).map (fun j => pauseDuration (rand (k + j))) =
        pauseDuration (rand k) ::
          (List.range c).map (fun j => pauseDuration (rand (k + 1 + j))) := by
    intro k c
    rw [List.range_succ_eq_map, List.map_cons, List.map_map]
    refine congrArg₂ _ (by simp) (List.map_congr_left ?_)
    intro a _
    have h2 : k + Nat.succ a = k + 1 + a := by omega
    simp [Function.comp, h2]
  intro fuel
  induction fuel with
  | zero =>
    intro s last k
    refine ⟨0, ?_⟩
    simp only [parseScan]
    rcases h : findMarker ms s with _ | ⟨i, m⟩
    · simp only [h, pauseDurations_tailText]
      rfl
    · simp only [h]
      rfl
  | succ f ih =>
    intro s last k
    simp only [parseScan]
    rcases h : findMarker ms s with _ | ⟨i, m⟩
    · refine ⟨0, ?_⟩
      simp only [h, pauseDurations_tailText]
      rfl
    · simp only [h]
      have hpre : pauseDurations (if idxGtLast m last = true then [Segment.text []] else []) =
          [] := by
        split <;> rfl
      by_cases hm : m = ellipsisToken
      · obtain ⟨c, hc⟩ := ih (s.drop (i + m.length))
          (JsValue.str (m ++ (toString m.length).toList)) (k + 1)
        refine ⟨c + 1, ?_⟩
        rw [if_pos hm, if_pos hm, pauseDurations_append, hpre, List.nil_append,
          pauseDurations_cons_pause, hc, hrange k c]
      · obtain ⟨c, hc⟩ := ih (s.drop (i + m.length))
          (JsValue.str (m ++ (toString m.length).toList)) k
        refine ⟨c, ?_⟩
        rw [if_neg hm, if_neg hm, pauseDurations_append, hpre, List.nil_append,
          pauseDurations_cons_sound, hc]

/-- The voice fallback expression always yields a nonempty voice id:
`voiceProfiles.default` is the nonempty string `larry`. -/
theorem resolveVoiceId_spec (vk : Option String) :
    ∃ v, resolveVoiceId vk = some v ∧ v ≠ "" := by
  have hdef : lookupProfile "default" = some "larry" := by decide
  unfold resolveVoiceId
  rcases h : vk.bind lookupProfile with _ | v
  · exact ⟨"larry", by simp [jsOrString, h, hdef], by decide⟩
  · by_cases hv : v = ""
    · subst hv
      exact ⟨"larry", by simp [jsOrString, h, hdef], by decide⟩
    · exact ⟨v, by simp [jsOrString, h, hv], hv⟩

/-- `generatePlayHTSpeech` never throws the unknown-voice error: the guard
`if (!voiceId) throw` is dead code because the default profile exists. -/
theorem generatePlayHTSpeech_ok (text : List Char) (vk tone : Option String) :
    ∃ call, generatePlayHTSpeech text vk tone = Except.ok call := by
  obtain ⟨v, hv, hne⟩ := resolveVoiceId_spec vk
  exact ⟨{ text := text, voiceId := v }, by simp [generatePlayHTSpeech, hv, hne]⟩

/-- A loop iteration that throws leaves `inputFiles` and `created`
untouched (the temp file of the failing operation is never registered). -/
theorem stepSeg_err_state (env : RunEnv) (vk tone : Option String) (st : LoopState)
    (seg : Segment) (msg : String) (st1 : LoopState)
    (h : stepSeg env vk tone st seg = Except.error (msg, st1)) :
    st1.inputFiles = st.inputFiles ∧ st1.created = st.created := by
  cases seg with
  | text c =>
    simp only [stepSeg] at h
    split at h
    · rcases hg : generatePlayHTSpeech c vk tone with m | call
      · simp only [hg] at h
        injection h with h2
        injection h2 with ha hb
        subst hb
        exact ⟨rfl, rfl⟩
      · simp only [hg] at h
        split at h
        · simp at h
        · injection h with h2
          injection h2 with ha hb
          subst hb
          exact ⟨rfl, rfl⟩
    · simp at h
  | pause d =>
    simp only [stepSeg] at h
    split at h
    · simp at h
    · injection h with h2
      injection h2 with ha hb
      subst hb
      exact ⟨rfl, rfl⟩
  | sound c =>
    simp only [stepSeg] at h
    rcases hl : soundMap.lookup (String.mk c) with _ | entry
    · simp [hl] at h
    · simp only [hl] at h
      split at h
      · split at h <;> simp at h
      · simp at h

/-- A successful loop iteration appends to `inputFiles` and `created`,
registers every created file as an input, and preserves the invariant that
a seen text segment is matched by a pitch-flagged input. -/
theorem stepSeg_ok_spec (env : RunEnv) (vk tone : Option String) (st : LoopState)
    (seg : Segment) (st1 : LoopState) (h : stepSeg env vk tone st seg = Except.ok st1) :
    ∃ add addC,
      st1.inputFiles = st.inputFiles ++ add ∧
      st1.created = st.created ++ addC ∧
      (∀ f ∈ addC, f ∈ add.map (fun x => x.file)) ∧
      ((st.hasTextSegment = true → ∃ f ∈ st.inputFiles, f.needsPitch = true) →
        st1.hasTextSegment = true → ∃ f ∈ st1.inputFiles, f.needsPitch = true) := by
  cases seg with
  | text c =>
    simp only [stepSeg] at h
    split at h
    · rcases hg : generatePlayHTSpeech c vk tone with m | call
      · simp [hg] at h
      · simp only [hg] at h
        split at h
        · injection h with h2
          subst h2
          refine ⟨[InputFile.mk (pathJoin tempDir ("tts_" ++ toString st.fileIndex ++ ".mp3")) true],
            [pathJoin tempDir ("tts_" ++ toString st.fileIndex ++ ".mp3")],
            by simp, by simp, by simp, ?_⟩
          intro _ _
          refine ⟨InputFile.mk (pathJoin tempDir ("tts_" ++ toString st.fileIndex ++ ".mp3")) true,
            by simp, rfl⟩
        · simp at h
    · injection h with h2
      subst h2
      exact ⟨[], [], by simp, by simp, by simp, fun hP hT => hP hT⟩
  | pause d =>
    simp only [stepSeg] at h
    split at h
    · injection h with h2
      subst h2
      refine ⟨[InputFile.mk (pathJoin tempDir ("silence_" ++ toString st.fileIndex ++ ".mp3")) false],
        [pathJoin tempDir ("silence_" ++ toString st.fileIndex ++ ".mp3")],
        by simp, by simp, by simp, ?_⟩
      intro hP hT
      obtain ⟨f, hf, hp⟩ := hP hT
      exact ⟨f, List.mem_append_left _ hf, hp⟩
    · simp at h
  | sound c =>
    simp only [stepSeg] at h
    rcases hl : soundMap.lookup (String.mk c) with _ | entry
    · simp only [hl] at h
      injection h with h2
      subst h2
      exact ⟨[], [], by simp, by simp, by simp, fun hP hT => hP hT⟩
    · simp only [hl] at h
      split at h
      · split at h
        · injection h with h2
          subst h2
          refine ⟨[InputFile.mk (pathJoin (pathJoin publicDir "sounds") entry.filename) false],
            [], by simp, by simp, by simp, ?_⟩
          intro hP hT
          obtain ⟨f, hf, hp⟩ := hP hT
          exact ⟨f, List.mem_append_left _ hf, hp⟩
        · injection h with h2
          subst h2
          exact ⟨[], [], by simp, by simp, by simp, fun hP hT => hP hT⟩
      · injection h with h2
        subst h2
        exact ⟨[], [], by simp, by simp, by simp, fun hP hT => hP hT⟩

/-- The materialization loop only appends to `inputFiles` and `created`
(earlier materializations keep their positions), every file it creates is
registered as an input, and on error-free runs the text/pitch invariant is
preserved. -/
theorem runLoop_spec (env : RunEnv) (vk tone : Option String) :
    ∀ (segs : List Segment) (st : LoopState),
    ∃ add addC,
      (runLoop env vk tone segs st).1.inputFiles = st.inputFiles ++ add ∧
      (runLoop env vk tone segs st).1.created = st.created ++ addC ∧
      (∀ f ∈ addC, f ∈ add.map (fun x => x.file)) ∧
      ((runLoop env vk tone segs st).2 = none →
        (st.hasTextSegment = true → ∃ f ∈ st.inputFiles, f.needsPitch = true) →
        (runLoop env vk tone segs st).1.hasTextSegment = true →
        ∃ f ∈ (runLoop env vk tone segs st).1.inputFiles, f.needsPitch = true) := by
  intro segs
  induction segs with
  | nil =>
    intro st
    refine ⟨[], [], by simp [runLoop], by simp [runLoop], by simp, ?_⟩
    intro _ hP hT
    simp only [runLoop] at hT ⊢
    exact hP hT
  | cons seg rest ih =>
    intro st
    rcases hstep : stepSeg env vk tone st seg with ⟨msg, st1⟩ | st1
    · have heq : runLoop env vk tone (seg :: rest) st = (st1, some msg) := by
        simp [runLoop, hstep]
      obtain ⟨hi, hc⟩ := stepSeg_err_state env vk tone st seg msg st1 hstep
      refine ⟨[], [], ?_, ?_, by simp, ?_⟩
      · rw [heq]
        simpa using hi
      · rw [heq]
        simpa using hc
      · rw [heq]
        intro hnone
        simp at hnone
    · have heq : runLoop env vk tone (seg :: rest) st = runLoop env vk tone rest st1 := by
        simp [runLoop, hstep]
      obtain ⟨add1, addC1, hi1, hc1, hm1, hp1⟩ := stepSeg_ok_spec env vk tone st seg st1 hstep
      obtain ⟨add2, addC2, hi2, hc2, hm2, hp2⟩ := ih st1
      refine ⟨add1 ++ add2, addC1 ++ addC2, ?_, ?_, ?_, ?_⟩
      · rw [heq, hi2, hi1, List.append_assoc]
      · rw [heq, hc2, hc1, List.append_assoc]
      · intro f hf
        rw [List.map_append]
        rcases List.mem_append.mp hf with hfa | hfb
        · exact List.mem_append_left _ (hm1 f hfa)
        · exact List.mem_append_right _ (hm2 f hfb)
      · rw [heq]
        intro hnone hP hT
        exact hp2 hnone (hp1 hP) hT

/-- Loop composability: segments are processed strictly in list order, so a
split of the segment list corresponds to sequential runs of the loop. -/
theorem runLoop_append (env : RunEnv) (vk tone : Option String) :
    ∀ (s1 s2 : List Segment) (st : LoopState),
    (runLoop env vk tone s1 st).2 = none →
    runLoop env vk tone (s1 ++ s2) st = runLoop env vk tone s2 (runLoop env vk tone s1 st).1 := by
  intro s1
  induction s1 with
  | nil =>
    intro s2 st _
    simp [runLoop]
  | cons seg rest ih =>
    intro s2 st hnone
    rcases hstep : stepSeg env vk tone st seg with ⟨msg, st1⟩ | st1
    · exfalso
      have : (runLoop env vk tone (seg :: rest) st).2 = some msg := by
        simp [runLoop, hstep]
      rw [this] at hnone
      simp at hnone
    · have h1 : runLoop env vk tone (seg :: rest) st = runLoop env vk tone rest st1 := by
        simp [runLoop, hstep]
      have h2 : runLoop env vk tone ((seg :: rest) ++ s2) st =
          runLoop env vk tone (rest ++ s2) st1 := by
        simp [runLoop, hstep]
      rw [h2, h1]
      rw [h1] at hnone
      exact ih s2 st1 hnone

/-- The fallback stage either does nothing (some input exists and a text
segment was seen) or appends exactly one pitch-flagged fallback input whose
file the run created. -/
theorem fallbackStep_ok_spec (env : RunEnv) (vk tone : Option String) (st st1 : LoopState)
    (h : fallbackStep env vk tone st = Except.ok st1) :
    (st1 = st ∧ st.inputFiles.length ≠ 0 ∧ st.hasTextSegment = true) ∨
    (∃ file, st1.inputFiles = st.inputFiles ++ [InputFile.mk file true] ∧
      st1.created = st.created ++ [file]) := by
  unfold fallbackStep at h
  split at h
  · split at h
    · simp at h
    · dsimp only at h
      split at h
      · injection h with h2
        subst h2
        right
        exact ⟨pathJoin tempDir ("fallback_" ++ toString st.fileIndex ++ ".mp3"), by simp, by simp⟩
      · simp at h
  · injection h with h2
    subst h2
    rename_i hcond
    rw [not_or] at hcond
    refine Or.inl ⟨rfl, hcond.1, ?_⟩
    cases hX : st.hasTextSegment with
    | false => exact absurd hX hcond.2
    | true => rfl

/-- A throwing fallback stage changes neither `inputFiles` nor `created`. -/
theorem fallbackStep_err_state (env : RunEnv) (vk tone : Option String) (st : LoopState)
    (msg : String) (st1 : LoopState)
    (h : fallbackStep env vk tone st = Except.error (msg, st1)) :
    st1.inputFiles = st.inputFiles ∧ st1.created = st.created := by
  unfold fallbackStep at h
  split at h
  · split at h
    · injection h with h2
      injection h2 with ha hb
      subst hb
      exact ⟨rfl, rfl⟩
    · dsimp only at h
      split at h
      · simp at h
      · injection h with h2
        injection h2 with ha hb
        subst hb
        exact ⟨rfl, rfl⟩
  · simp at h

/-- A run whose overall result is `ok` went through: an error-free loop,
a successful fallback stage, and a successful ffmpeg merge. -/
theorem merge_ok_cases (env : RunEnv) (segs : List Segment) (vk tone : Option String)
    (h : ExceptOk (mergeAudioSegments env segs vk tone).result) :
    ∃ st st1, runLoop env vk tone segs initState = (st, none) ∧
      fallbackStep env vk tone st = Except.ok st1 ∧ env.mergeOk = true ∧
      mergeAudioSegments env segs vk tone = finishMerge env st1 := by
  unfold ExceptOk at h
  rcases hr : runLoop env vk tone segs initState with ⟨st, e⟩
  cases e with
  | some msg =>
    have hm : mergeAudioSegments env segs vk tone = mergeAfterLoop env vk tone (st, some msg) := by
      unfold mergeAudioSegments
      rw [hr]
    rw [hm] at h
    simp [mergeAfterLoop] at h
  | none =>
    have hm : mergeAudioSegments env segs vk tone = mergeAfterLoop env vk tone (st, none) := by
      unfold mergeAudioSegments
      rw [hr]
    rcases hf : fallbackStep env vk tone st with ⟨msg, st1⟩ | st1
    · rw [hm] at h
      simp only [mergeAfterLoop, hf] at h
      simp at h
    · have hm2 : mergeAudioSegments env segs vk tone = finishMerge env st1 := by
        rw [hm]
        simp only [mergeAfterLoop, hf]
      rw [hm2] at h
      cases hmerge : env.mergeOk with
      | false =>
        exfalso
        simp [finishMerge, hmerge] at h
      | true => exact ⟨st, st1, rfl, hf, rfl, hm2⟩

/-- Whatever else happens, `finishMerge` only appends (the merged output
file, when the merge succeeds) to the created list. -/
theorem finishMerge_created (env : RunEnv) (st1 : LoopState) :
    ∃ t, (finishMerge env st1).created = st1.created ++ t := by
  unfold finishMerge
  cases hm : env.mergeOk
  · exact ⟨[], by simp⟩
  · exact ⟨[pathJoin tempDir ("merged_" ++ toString env.now ++ ".mp3")], by simp⟩

/-- Every file the loop created is still in the run's created list: the
later stages only append to it. -/
theorem merge_created_mono (env : RunEnv) (segs : List Segment) (vk tone : Option String) :
    ∃ addC, (mergeAudioSegments env segs vk tone).created =
      (runLoop env vk tone segs initState).1.created ++ addC := by
  rcases hr : runLoop env vk tone segs initState with ⟨st, e⟩
  cases e with
  | some msg =>
    have hm : mergeAudioSegments env segs vk tone = mergeAfterLoop env vk tone (st, some msg) := by
      unfold mergeAudioSegments
      rw [hr]
    rw [hm]
    exact ⟨[], by simp [mergeAfterLoop]⟩
  | none =>
    have hm : mergeAudioSegments env segs vk tone = mergeAfterLoop env vk tone (st, none) := by
      unfold mergeAudioSegments
      rw [hr]
    rw [hm]
    rcases hf : fallbackStep env vk tone st with ⟨msg, st1⟩ | st1
    · obtain ⟨_, hc⟩ := fallbackStep_err_state env vk tone st msg st1 hf
      refine ⟨[], ?_⟩
      simp only [mergeAfterLoop, hf]
      simp [hc]
    · obtain ⟨t, ht⟩ := finishMerge_created env st1
      simp only [mergeAfterLoop, hf]
      rcases fallbackStep_ok_spec env vk tone st st1 hf with ⟨heq, _, _⟩ | ⟨file, _, hc⟩
      · subst heq
        exact ⟨t, by simpa using ht⟩
      · refine ⟨[file] ++ t, ?_⟩
        simp only [ht, hc, List.append_assoc]

/-- Claim C1 (amended): temporary files are deleted exactly when the merge
succeeded and the consumer read the output stream to its end; in that case
every file the run created is in the unlink list.  On every failure path,
and when the consumer never reaches end of stream, nothing is deleted (the
temporary files leak).  Unlink errors are swallowed per file in the source
(`.catch(() => {})`), so deletion errors never propagate. -/
theorem c1_cleanup_only_on_consumed (env : RunEnv) (segs : List Segment)
    (vk tone : Option String) :
    (ExceptOk (mergeAudioSegments env segs vk tone).result → env.streamEnd = true →
      ∀ f ∈ (mergeAudioSegments env segs vk tone).created,
        f ∈ (mergeAudioSegments env segs vk tone).deleted) ∧
    (¬ (ExceptOk (mergeAudioSegments env segs vk tone).result ∧ env.streamEnd = true) →
      (mergeAudioSegments env segs vk tone).deleted = []) := by
  constructor
  · intro hok hend f hf
    obtain ⟨st, st1, hr, hfb, hmerge, hm⟩ := merge_ok_cases env segs vk tone hok
    obtain ⟨add, addC, hi, hc, hmem, _⟩ := runLoop_spec env vk tone segs initState
    rw [hr] at hi hc
    simp only [initState, List.nil_append] at hi hc
    have hsub : ∀ g ∈ st.created, g ∈ st.inputFiles.map (fun x => x.file) := by
      intro g hg
      rw [hc] at hg
      rw [hi]
      exact hmem g hg
    have hsub1 : ∀ g ∈ st1.created, g ∈ st1.inputFiles.map (fun x => x.file) := by
      rcases fallbackStep_ok_spec env vk tone st st1 hfb with ⟨heq, _, _⟩ | ⟨file, hin1, hc1⟩
      · subst heq
        exact hsub
      · intro g hg
        rw [hc1] at hg
        rw [hin1, List.map_append]
        rcases List.mem_append.mp hg with hga | hgb
        · exact List.mem_append_left _ (hsub g hga)
        · simp only [List.mem_singleton] at hgb
          subst hgb
          simp
    rw [hm] at hf ⊢
    simp only [finishMerge, hmerge, if_true, hend] at hf ⊢
    rcases List.mem_append.mp hf with hfa | hfb2
    · exact List.mem_append_left _ (hsub1 f hfa)
    · exact List.mem_append_right _ hfb2
  · intro hno
    rcases hr : runLoop env vk tone segs initState with ⟨st, e⟩
    cases e with
    | some msg =>
      have hm : mergeAudioSegments env segs vk tone =
          mergeAfterLoop env vk tone (st, some msg) := by
        unfold mergeAudioSegments
        rw [hr]
      rw [hm]
      simp [mergeAfterLoop]
    | none =>
      have hm : mergeAudioSegments env segs vk tone =
          mergeAfterLoop env vk tone (st, none) := by
        unfold mergeAudioSegments
        rw [hr]
      rcases hf : fallbackStep env vk tone st with ⟨msg, st1⟩ | st1
      · rw [hm]
        simp only [mergeAfterLoop, hf]
      · have hm2 : mergeAudioSegments env segs vk tone = finishMerge env st1 := by
          rw [hm]
          simp only [mergeAfterLoop, hf]
        rw [hm2] at hno ⊢
        cases hmerge : env.mergeOk with
        | false => simp [finishMerge, hmerge]
        | true =>
          cases hend : env.streamEnd with
          | false => simp [finishMerge, hmerge, hend]
          | true =>
            exfalso
            exact hno ⟨by simp [ExceptOk, finishMerge, hmerge], hend⟩

/-- Witness for C1 (amended) at concrete runs: a fully consumed successful
run does delete its temp segment file, and a run whose merge fails deletes
nothing. -/
theorem c1_cleanup_only_on_consumed_witness :
    "/tmp/tts_0.mp3" ∈
      (mergeAudioSegments envAllOk [Segment.text "Hi".toList] none none).deleted ∧
    (mergeAudioSegments envMergeFail [Segment.text "Hi".toList] none none).deleted = [] := by
  constructor
  · exact (c1_cleanup_only_on_consumed envAllOk [Segment.text "Hi".toList] none none).1
      (by decide) (by decide) "/tmp/tts_0.mp3" (by decide)
  · exact (c1_cleanup_only_on_consumed envMergeFail [Segment.text "Hi".toList] none none).2
      (by decide)

/-- Claim C2 (amended): a synthesis failure on a text segment aborts the
whole composition.  If the first segment is a non-blank text segment and
its synthesis call fails, the merge returns the error, no merge invocation
is built, nothing was materialized or deleted, and exactly one synthesis
call was attempted — the sibling segments are never sourced and no
fallback is produced. -/
theorem c2_synth_failure_aborts (env : RunEnv) (vk tone : Option String)
    (c : List Char) (rest : List Segment)
    (h1 : jsTrim c ≠ []) (h2 : env.synthOk 0 = false) :
    (mergeAudioSegments env (Segment.text c :: rest) vk tone).result =
      Except.error "SynthesisError" ∧
    (mergeAudioSegments env (Segment.text c :: rest) vk tone).invocation = none ∧
    (mergeAudioSegments env (Segment.text c :: rest) vk tone).created = [] ∧
    (mergeAudioSegments env (Segment.text c :: rest) vk tone).deleted = [] ∧
    (mergeAudioSegments env (Segment.text c :: rest) vk tone).synthCalls.length = 1 := by
  obtain ⟨call, hcall⟩ := generatePlayHTSpeech_ok c vk tone
  have hstep : stepSeg env vk tone initState (Segment.text c) =
      Except.error ("SynthesisError",
        { fileIndex := 1, hasTextSegment := true, inputFiles := [], created := [],
          synthN := 1, silenceN := 0, synthCalls := [call] }) := by
    simp only [stepSeg]
    rw [if_pos h1]
    simp only [hcall]
    simp [initState, h2]
  have hrl : runLoop env vk tone (Segment.text c :: rest) initState =
      ({ fileIndex := 1, hasTextSegment := true, inputFiles := [], created := [],
         synthN := 1, silenceN := 0, synthCalls := [call] }, some "SynthesisError") := by
    simp [runLoop, hstep]
  have hm : mergeAudioSegments env (Segment.text c :: rest) vk tone =
      mergeAfterLoop env vk tone
        ({ fileIndex := 1, hasTextSegment := true, inputFiles := [], created := [],
           synthN := 1, silenceN := 0, synthCalls := [call] }, some "SynthesisError") := by
    unfold mergeAudioSegments
    rw [hrl]
  refine ⟨?_, ?_, ?_, ?_, ?_⟩ <;> rw [hm] <;> simp [mergeAfterLoop]

/-- Witness for C2 (amended) at a concrete run. -/
theorem c2_synth_failure_aborts_witness :
    (mergeAudioSegments envSynthFailFirst
        (Segment.text "a".toList :: [Segment.text "b".toList]) none none).result =
      Except.error "SynthesisError" ∧
    (mergeAudioSegments envSynthFailFirst
        (Segment.text "a".toList :: [Segment.text "b".toList]) none none).invocation = none ∧
    (mergeAudioSegments envSynthFailFirst
        (Segment.text "a".toList :: [Segment.text "b".toList]) none none).created = [] ∧
    (mergeAudioSegments envSynthFailFirst
        (Segment.text "a".toList :: [Segment.text "b".toList]) none none).deleted = [] ∧
    (mergeAudioSegments envSynthFailFirst
        (Segment.text "a".toList :: [Segment.text "b".toList]) none none).synthCalls.length =
      1 :=
  c2_synth_failure_aborts envSynthFailFirst none none "a".toList [Segment.text "b".toList]
    (by decide) (by decide)

/-- Claim C3 (amended): when the composition succeeds, the transcoder's
input list keeps every materialized input of the loop, in order, as a
prefix (nothing is discarded); it is never empty; and it always contains at
least one pitch-flagged (synthesized-speech) input — the fallback utterance
is appended exactly when no real speech materialized, so the output is
never empty and never silence-only. -/
theorem c3_fallback_appended (env : RunEnv) (segs : List Segment) (vk tone : Option String)
    (h : ExceptOk (mergeAudioSegments env segs vk tone).result) :
    ∃ inv, (mergeAudioSegments env segs vk tone).invocation = some inv ∧
      inv.inputs.take (runLoop env vk tone segs initState).1.inputFiles.length =
        (runLoop env vk tone segs initState).1.inputFiles ∧
      inv.inputs ≠ [] ∧
      ∃ f ∈ inv.inputs, f.needsPitch = true := by
  obtain ⟨st, st1, hr, hfb, hmerge, hm⟩ := merge_ok_cases env segs vk tone h
  have hinv : (mergeAudioSegments env segs vk tone).invocation =
      some { inputs := st1.inputFiles,
             filterInputs := buildFilterInputs st1.inputFiles,
             concatFilter := buildConcatFilter st1.inputFiles.length,
             outputFile := pathJoin tempDir ("merged_" ++ toString env.now ++ ".mp3") } := by
    rw [hm]
    simp [finishMerge, hmerge]
  refine ⟨_, hinv, ?_, ?_, ?_⟩
  · rw [hr]
    rcases fallbackStep_ok_spec env vk tone st st1 hfb with ⟨heq, _, _⟩ | ⟨file, hin1, _⟩
    · subst heq
      exact List.take_length _
    · rw [hin1]
      exact List.take_left _ _
  · rcases fallbackStep_ok_spec env vk tone st st1 hfb with ⟨heq, hlen, _⟩ | ⟨file, hin1, _⟩
    · subst heq
      intro hnil
      apply hlen
      rw [show st1.inputFiles = [] from hnil]
      rfl
    · rw [hin1]
      simp
  · rcases fallbackStep_ok_spec env vk tone st st1 hfb with ⟨heq, _, hT⟩ | ⟨file, hin1, _⟩
    · subst heq
      obtain ⟨_, _, _, _, _, hp⟩ := runLoop_spec env vk tone segs initState
      have hnone : (runLoop env vk tone segs initState).2 = none := by
        rw [hr]
      have hres := hp hnone (fun hini => by simp [initState] at hini)
      rw [hr] at hres
      exact hres hT
    · refine ⟨InputFile.mk file true, ?_, rfl⟩
      rw [hin1]
      simp

/-- Witness for C3 (amended) at a concrete pause-only run. -/
theorem c3_fallback_appended_witness :
    ∃ inv, (mergeAudioSegments envAllOk [Segment.pause 500] none none).invocation =
        some inv ∧
      inv.inputs.take
          (runLoop envAllOk none none [Segment.pause 500] initState).1.inputFiles.length =
        (runLoop envAllOk none none [Segment.pause 500] initState).1.inputFiles ∧
      inv.inputs ≠ [] ∧
      ∃ f ∈ inv.inputs, f.needsPitch = true :=
  c3_fallback_appended envAllOk [Segment.pause 500] none none (by decide)

/-- Claim C4: the single transcoding invocation applies the pitch-shift
filter — with the one fixed global constant, independent of voice, segment
and request — to exactly the inputs tagged `needsPitch`, and passes the
others through to the concatenation with no transform.  Materialization
tags pause-silence and sound inputs `needsPitch := false` and synthesized
speech (text segments and the fallback utterance) `needsPitch := true`,
and the run's invocation uses exactly this filter list. -/
theorem c4_pitch_policy :
    (∀ (l : List InputFile) (i : Nat) (h1 : i < l.length)
        (h2 : i < (buildFilterInputs l).length),
      (buildFilterInputs l).get ⟨i, h2⟩ =
        if (l.get ⟨i, h1⟩).needsPitch then pitchFilter i else passFilter i) ∧
    (∀ i, pitchFilter i =
      "[" ++ toString i ++ ":a]rubberband=pitch=" ++ rubberbandPitchFactor ++
        "[" ++ toString i ++ "a]") ∧
    (∀ i, passFilter i = "[" ++ toString i ++ ":a][" ++ toString i ++ "a]") ∧
    (∀ (env : RunEnv) (vk tone : Option String) (st : LoopState) (d : Int)
        (st1 : LoopState), stepSeg env vk tone st (Segment.pause d) = Except.ok st1 →
      ∃ file, st1.inputFiles = st.inputFiles ++ [InputFile.mk file false]) ∧
    (∀ (env : RunEnv) (vk tone : Option String) (st : LoopState) (c : List Char)
        (st1 : LoopState), stepSeg env vk tone st (Segment.sound c) = Except.ok st1 →
      st1.inputFiles = st.inputFiles ∨
        ∃ file, st1.inputFiles = st.inputFiles ++ [InputFile.mk file false]) ∧
    (∀ (env : RunEnv) (vk tone : Option String) (st : LoopState) (c : List Char)
        (st1 : LoopState), stepSeg env vk tone st (Segment.text c) = Except.ok st1 →
      st1.inputFiles = st.inputFiles ∨
        ∃ file, st1.inputFiles = st.inputFiles ++ [InputFile.mk file true]) ∧
    (∀ (env : RunEnv) (vk tone : Option String) (st st1 : LoopState),
      fallbackStep env vk tone st = Except.ok st1 →
      st1.inputFiles = st.inputFiles ∨
        ∃ file, st1.inputFiles = st.inputFiles ++ [InputFile.mk file true]) ∧
    (∀ (env : RunEnv) (segs : List Segment) (vk tone : Option String),
      ExceptOk (mergeAudioSegments env segs vk tone).result →
      ∃ inv, (mergeAudioSegments env segs vk tone).invocation = some inv ∧
        inv.filterInputs = buildFilterInputs inv.inputs ∧
        inv.concatFilter = buildConcatFilter inv.inputs.length) := by
  refine ⟨?_, fun i => rfl, fun i => rfl, ?_, ?_, ?_, ?_, ?_⟩
  · intro l i h1 h2
    simp [buildFilterInputs, List.get_eq_getElem, List.getElem_map, List.getElem_enum]
  · intro env vk tone st d st1 h
    simp only [stepSeg] at h
    split at h
    · injection h with h2
      subst h2
      exact ⟨pathJoin tempDir ("silence_" ++ toString st.fileIndex ++ ".mp3"), by simp⟩
    · simp at h
  · intro env vk tone st c st1 h
    simp only [stepSeg] at h
    rcases hl : soundMap.lookup (String.mk c) with _ | entry
    · simp only [hl] at h
      injection h with h2
      subst h2
      exact Or.inl rfl
    · simp only [hl] at h
      split at h
      · split at h
        · injection h with h2
          subst h2
          exact Or.inr ⟨pathJoin (pathJoin publicDir "sounds") entry.filename, by simp⟩
        · injection h with h2
          subst h2
          exact Or.inl rfl
      · injection h with h2
        subst h2
        exact Or.inl rfl
  · intro env vk tone st c st1 h
    simp only [stepSeg] at h
    split at h
    · rcases hg : generatePlayHTSpeech c vk tone with m | call
      · simp [hg] at h
      · simp only [hg] at h
        split at h
        · injection h with h2
          subst h2
          exact Or.inr ⟨pathJoin tempDir ("tts_" ++ toString st.fileIndex ++ ".mp3"), by simp⟩
        · simp at h
    · injection h with h2
      subst h2
      exact Or.inl rfl
  · intro env vk tone st st1 h
    rcases fallbackStep_ok_spec env vk tone st st1 h with ⟨heq, _, _⟩ | ⟨file, hin1, _⟩
    · subst heq
      exact Or.inl rfl
    · exact Or.inr ⟨file, hin1⟩
  · intro env segs vk tone h
    obtain ⟨st, st1, hr, hfb, hmerge, hm⟩ := merge_ok_cases env segs vk tone h
    refine ⟨{ inputs := st1.inputFiles,
              filterInputs := buildFilterInputs st1.inputFiles,
              concatFilter := buildConcatFilter st1.inputFiles.length,
              outputFile := pathJoin tempDir ("merged_" ++ toString env.now ++ ".mp3") },
      ?_, rfl, rfl⟩
    rw [hm]
    simp [finishMerge, hmerge]

/-- Witness for C4 at concrete inputs: the pitch filter string is selected
for a pitch-tagged input. -/
theorem c4_pitch_policy_witness :
    (buildFilterInputs [InputFile.mk "/tmp/tts_0.mp3" true]).get ⟨0, by decide⟩ =
      if (([InputFile.mk "/tmp/tts_0.mp3" true]).get ⟨0, by decide⟩).needsPitch
      then pitchFilter 0 else passFilter 0 :=
  c4_pitch_policy.1 [InputFile.mk "/tmp/tts_0.mp3" true] 0 (by decide) (by decide)

/-- Claim C5: the concatenation preserves parse order.  The loop processes
segments strictly in list order (composability over list append), only
appends to the materialized input list (earlier inputs keep their
positions), the final invocation keeps the loop's inputs as a prefix (the
fallback is only ever appended at the end) and sizes the concat filter to
the input count, and the concat filter joins the relabelled streams in
increasing index order. -/
theorem c5_order_preserved (env : RunEnv) (vk tone : Option String) :
    (∀ (s1 s2 : List Segment) (st : LoopState),
      (runLoop env vk tone s1 st).2 = none →
      runLoop env vk tone (s1 ++ s2) st =
        runLoop env vk tone s2 (runLoop env vk tone s1 st).1) ∧
    (∀ (segs : List Segment) (st : LoopState),
      (runLoop env vk tone segs st).1.inputFiles.take st.inputFiles.length =
        st.inputFiles) ∧
    (∀ (segs : List Segment),
      ExceptOk (mergeAudioSegments env segs vk tone).result →
      ∃ inv, (mergeAudioSegments env segs vk tone).invocation = some inv ∧
        inv.inputs.take (runLoop env vk tone segs initState).1.inputFiles.length =
          (runLoop env vk tone segs initState).1.inputFiles ∧
        inv.concatFilter = buildConcatFilter inv.inputs.length) ∧
    (∀ n, buildConcatFilter n =
      String.join ((List.range n).map (fun i => "[" ++ toString i ++ "a]")) ++
        ("concat=n=" ++ toString n ++ ":v=0:a=1[outa]")) := by
  refine ⟨runLoop_append env vk tone, ?_, ?_, fun n => rfl⟩
  · intro segs st
    obtain ⟨add, addC, hi, _, _, _⟩ := runLoop_spec env vk tone segs st
    rw [hi]
    exact List.take_left _ _
  · intro segs h
    obtain ⟨st, st1, hr, hfb, hmerge, hm⟩ := merge_ok_cases env segs vk tone h
    refine ⟨{ inputs := st1.inputFiles,
              filterInputs := buildFilterInputs st1.inputFiles,
              concatFilter := buildConcatFilter st1.inputFiles.length,
              outputFile := pathJoin tempDir ("merged_" ++ toString env.now ++ ".mp3") },
      ?_, ?_, rfl⟩
    · rw [hm]
      simp [finishMerge, hmerge]
    · rw [hr]
      rcases fallbackStep_ok_spec env vk tone st st1 hfb with ⟨heq, _, _⟩ | ⟨file, hin1, _⟩
      · subst heq
        exact List.take_length _
      · rw [hin1]
        exact List.take_left _ _

/-- Witness for C5 at a concrete split of a concrete segment list. -/
theorem c5_order_preserved_witness :
    runLoop envAllOk none none ([Segment.pause 500] ++ [Segment.sound "laugh".toList])
        initState =
      runLoop envAllOk none none [Segment.sound "laugh".toList]
        (runLoop envAllOk none none [Segment.pause 500] initState).1 :=
  (c5_order_preserved envAllOk none none).1 [Segment.pause 500]
    [Segment.sound "laugh".toList] initState (by decide)

/-- The first materialized text segment of a run claims the fixed path
`/tmp/tts_0.mp3`, and that path stays in the run's created list. -/
theorem mergeCreates_tts0 (env : RunEnv) (vk tone : Option String) (c : List Char)
    (rest : List Segment) (h1 : jsTrim c ≠ []) (e1 : env.synthOk 0 = true) :
    "/tmp/tts_0.mp3" ∈ (mergeAudioSegments env (Segment.text c :: rest) vk tone).created := by
  obtain ⟨call, hcall⟩ := generatePlayHTSpeech_ok c vk tone
  have hstep : stepSeg env vk tone initState (Segment.text c) =
      Except.ok { fileIndex := 1, hasTextSegment := true,
                  inputFiles := [InputFile.mk "/tmp/tts_0.mp3" true],
                  created := ["/tmp/tts_0.mp3"], synthN := 1, silenceN := 0,
                  synthCalls := [call] } := by
    simp only [stepSeg]
    rw [if_pos h1]
    simp only [hcall]
    simp [initState, e1, pathJoin, tempDir]
    decide
  have hloop : runLoop env vk tone (Segment.text c :: rest) initState =
      runLoop env vk tone rest
        { fileIndex := 1, hasTextSegment := true,
          inputFiles := [InputFile.mk "/tmp/tts_0.mp3" true],
          created := ["/tmp/tts_0.mp3"], synthN := 1, silenceN := 0,
          synthCalls := [call] } := by
    simp [runLoop, hstep]
  obtain ⟨addC2, hc2⟩ := merge_created_mono env (Segment.text c :: rest) vk tone
  obtain ⟨add, addC, _, hcA, _, _⟩ := runLoop_spec env vk tone rest
    { fileIndex := 1, hasTextSegment := true,
      inputFiles := [InputFile.mk "/tmp/tts_0.mp3" true],
      created := ["/tmp/tts_0.mp3"], synthN := 1, silenceN := 0,
      synthCalls := [call] }
  rw [hc2, hloop, hcA]
  simp

/-- Claim C9 (amended): only the merged output file name carries the
per-run timestamp; the materialized segment temp files are named by a
counter that restarts at 0 for every run, in the shared temp directory.
Any two runs that each materialize a first text segment therefore both
create `/tmp/tts_0.mp3` — the created-path sets of distinct runs are not
disjoint. -/
theorem c9_segment_paths_collide (env1 env2 : RunEnv) (vk1 tone1 vk2 tone2 : Option String)
    (c1 c2 : List Char) (rest1 rest2 : List Segment)
    (h1 : jsTrim c1 ≠ []) (h2 : jsTrim c2 ≠ [])
    (e1 : env1.synthOk 0 = true) (e2 : env2.synthOk 0 = true) :
    "/tmp/tts_0.mp3" ∈
      (mergeAudioSegments env1 (Segment.text c1 :: rest1) vk1 tone1).created ∧
    "/tmp/tts_0.mp3" ∈
      (mergeAudioSegments env2 (Segment.text c2 :: rest2) vk2 tone2).created :=
  ⟨mergeCreates_tts0 env1 vk1 tone1 c1 rest1 h1 e1,
    mergeCreates_tts0 env2 vk2 tone2 c2 rest2 h2 e2⟩

/-- Witness for C9 (amended) at two concrete distinct runs. -/
theorem c9_segment_paths_collide_witness :
    "/tmp/tts_0.mp3" ∈
      (mergeAudioSegments envAllOk (Segment.text "a".toList :: []) none none).created ∧
    "/tmp/tts_0.mp3" ∈
      (mergeAudioSegments envAllOkLater (Segment.text "b".toList :: []) none none).created :=
  c9_segment_paths_collide envAllOk envAllOkLater none none none none
    "a".toList "b".toList [] [] (by decide) (by decide) (by decide) (by decide)

/-- Claim C10: for every ellipsis token the parser matches, it emits a
Pause segment whose duration is an integer drawn uniformly from the
inclusive range 400-600 ms, with an independent fresh draw per occurrence:
the j-th pause of the output consumes the j-th `Math.random()` draw, each
draw in `[0,1)` lands in `[400, 600]`, and the preimage of each value `d`
is a half-open interval of width `1/201` (uniformity). -/
theorem c10_pause_random (rand : Nat → ℚ) (text : List Char) :
    (∃ c, pauseDurations (parseSegments rand text) =
        (List.range c).map (fun j => pauseDuration (rand j))) ∧
    (∀ r : ℚ, 0 ≤ r → r < 1 →
        TTS_ELLIPSIS_BREAK_MIN_MS ≤ pauseDuration r ∧
        pauseDuration r ≤ TTS_ELLIPSIS_BREAK_MAX_MS) ∧
    (∀ d : Int, TTS_ELLIPSIS_BREAK_MIN_MS ≤ d → d ≤ TTS_ELLIPSIS_BREAK_MAX_MS →
        ∀ r : ℚ, 0 ≤ r → r < 1 →
        (pauseDuration r = d ↔ ((d : ℚ) - 400) / 201 ≤ r ∧ r < ((d : ℚ) - 399) / 201)) := by
  refine ⟨?_, ?_, ?_⟩
  · obtain ⟨c, hc⟩ := pauseDurations_parseScan rand markers text.length text (JsValue.num 0) 0
    refine ⟨c, ?_⟩
    rw [parseSegments, hc]
    exact List.map_congr_left (fun a _ => by rw [Nat.zero_add])
  · intro r h0 h1
    have := pauseDuration_range r h0 h1
    unfold TTS_ELLIPSIS_BREAK_MIN_MS TTS_ELLIPSIS_BREAK_MAX_MS
    omega
  · intro d _ _ r _ _
    exact pauseDuration_eq_iff r d

/-- Witness for C10 at concrete inputs. -/
theorem c10_pause_random_witness :
    (∃ c, pauseDurations (parseSegments (fun _ => 1 / 2) "a... b".toList) =
        (List.range c).map (fun j => pauseDuration ((fun _ : Nat => (1 : ℚ) / 2) j))) ∧
    (TTS_ELLIPSIS_BREAK_MIN_MS ≤ pauseDuration (1 / 2) ∧
      pauseDuration (1 / 2) ≤ TTS_ELLIPSIS_BREAK_MAX_MS) ∧
    (pauseDuration (1 / 2) = 500 ↔
      ((500 : ℚ) - 400) / 201 ≤ 1 / 2 ∧ (1 / 2 : ℚ) < ((500 : ℚ) - 399) / 201) := by
  obtain ⟨h1, h2, h3⟩ := c10_pause_random (fun _ => 1 / 2) "a... b".toList
  exact ⟨h1, h2 (1 / 2) (by norm_num) (by norm_num),
    h3 500 (by norm_num [TTS_ELLIPSIS_BREAK_MIN_MS]) (by norm_num [TTS_ELLIPSIS_BREAK_MAX_MS])
      (1 / 2) (by norm_num) (by norm_num)⟩

/-- Claim C6 (code bug): the claim says the parser's segments cover the
whole input and reconstruct it.  On the code, the replace callback binds
the regex capture group (a string) where it expects the numeric match
offset, so every comparison guarding a text push is `NaN`-false: for
`"Hello... world"` the parse is a single Pause segment — `"Hello"` and
`" world"` are dropped — and the reconstruction is `"..."`, not the input.
(When no marker matches at all, the whole input survives as one text
segment, which the last conjunct records.) -/
theorem c6_parser_drops_text :
    parseSegments (fun _ => 0) "Hello... world".toList =
      [Segment.pause (pauseDuration 0)] ∧
    pauseDuration 0 = 400 ∧
    renderAll (parseSegments (fun _ => 0) "Hello... world".toList) = "...".toList ∧
    "...".toList ≠ "Hello... world".toList ∧
    parseSegments (fun _ => 0) "Hello world".toList =
      [Segment.text "Hello world".toList] := by
  refine ⟨rfl, ?_, rfl, by decide, rfl⟩
  rw [pauseDuration_def]
  rw [show (0 : ℚ) * 201 = 0 by norm_num]
  rw [show Rat.floor (0 : ℚ) = 0 from ratFloor_eq_iff.mpr (by norm_num)]
  norm_num

/-- Claim C1's counterexample: a run whose final ffmpeg merge fails leaks
its temporary segment file — the run created `/tmp/tts_0.mp3` and deleted
nothing, because the cleanup handler is attached only to the success
stream's `end` event. -/
theorem c1_counterexample :
    (mergeAudioSegments envMergeFail [Segment.text "Hello".toList] none none).result =
      Except.error "FFmpeg error: boom" ∧
    (mergeAudioSegments envMergeFail [Segment.text "Hello".toList] none none).created =
      ["/tmp/tts_0.mp3"] ∧
    (mergeAudioSegments envMergeFail [Segment.text "Hello".toList] none none).deleted =
      [] := by
  decide

/-- Claim C2's counterexample: when synthesis of the first text segment
fails, the whole composition aborts with the error; the sibling text
segment is never sourced (exactly one synthesis call was attempted) and no
merge invocation is built. -/
theorem c2_counterexample :
    (mergeAudioSegments envSynthFailFirst
        [Segment.text "a".toList, Segment.text "b".toList] none none).result =
      Except.error "SynthesisError" ∧
    (mergeAudioSegments envSynthFailFirst
        [Segment.text "a".toList, Segment.text "b".toList] none none).synthCalls.length =
      1 ∧
    (mergeAudioSegments envSynthFailFirst
        [Segment.text "a".toList, Segment.text "b".toList] none none).invocation =
      none := by
  decide

/-- Claim C3's counterexample: a pause-only composition does NOT discard
the materialized silence input; the fallback is appended, so the transcoder
gets two inputs (silence first), not exactly one fallback segment. -/
theorem c3_counterexample :
    ((mergeAudioSegments envAllOk [Segment.pause 500] none none).invocation.map
        (fun inv => inv.inputs)) =
      some [{ file := "/tmp/silence_0.mp3", needsPitch := false },
            { file := "/tmp/fallback_1.mp3", needsPitch := true }] ∧
    (mergeAudioSegments envAllOk [Segment.pause 500] none none).result =
      Except.ok () := by
  decide

/-- Claim C7 (code bug): line 705 calls `mergeAudioSegments(segments, tone)`
so the computed `voiceKey` is dropped: for personality `bundy` (mapped to
voice key `ted`) with tone `angry`, the synthesis uses the default voice
`larry`, not the ted manifest; and a tone equal to a profile key even
selects that voice. -/
theorem c7_voice_dropped :
    (ttsHandler envAllOk (fun _ => 0) "Hello" (some "bundy") (some "angry")).synthVoices =
      some ["larry"] ∧
    (personalities.lookup "bundy").map (fun c => c.voiceKey) = some "ted" ∧
    lookupProfile "ted" =
      some "s3://voice-cloning-zero-shot/xhzY33B1Yz3B-ZtcNnUOJ/ted/manifest.json" ∧
    ("larry" : String) ≠
      "s3://voice-cloning-zero-shot/xhzY33B1Yz3B-ZtcNnUOJ/ted/manifest.json" ∧
    (ttsHandler envAllOk (fun _ => 0) "Hello" (some "bundy") (some "jimmy")).synthVoices =
      some ["s3://voice-cloning-zero-shot/mxG-JSMwfhNaVWVLqawsg/jimy/manifest.json"] := by
  decide

/-- Claim C8 (code bug): the cleanup unlinks every entry of `inputFiles`,
which includes resolved pre-recorded sound assets: a run with a sound
segment deletes `public/sounds/fart4.mp3` — a shared asset it never
created. -/
theorem c8_sound_asset_deleted :
    "public/sounds/fart4.mp3" ∈
      (mergeAudioSegments envAllOk
        [Segment.text "Hi".toList, Segment.sound "*coughs*".toList] none none).deleted ∧
    "public/sounds/fart4.mp3" ∉
      (mergeAudioSegments envAllOk
        [Segment.text "Hi".toList, Segment.sound "*coughs*".toList] none none).created := by
  decide

/-- Claim C9's counterexample: two distinct runs (different segments,
different `Date.now()`) both create the segment temp path
`/tmp/tts_0.mp3` — the per-run `fileIndex` counter starts at 0 in the
shared temp directory, so the created-path sets are not disjoint. -/
theorem c9_counterexample :
    "/tmp/tts_0.mp3" ∈
      (mergeAudioSegments envAllOk [Segment.text "a".toList] none none).created ∧
    "/tmp/tts_0.mp3" ∈
      (mergeAudioSegments envAllOkLater [Segment.text "b".toList] none none).created ∧
    envAllOk.now ≠ envAllOkLater.now := by
  decide

end Vok
